import Mathlib

/-!
Verification of the back-navigation interception utility in
`src/back-handler.ts` of vue-spark/h5-kit.

The TypeScript module maintains a process-wide singleton `BackHandler`
with an ordered stack `history` of entry objects, install/teardown
gating, and a platform listener that pops the topmost entry when its
guard condition passes.  We embed it shallowly:

* JavaScript object references are modelled by natural numbers; the
  object store is a heap `Nat -> BackHandlerHistoryEntry`, so in-place
  mutation of a shared entry object (as done by
  `entry.condition ??= getTrue`) is a heap update visible through the
  same reference.
* The zero-argument closures used as conditions are first-order data
  (`Cond`) evaluated against a reactive environment `Env` that maps
  reactive flag slots to their current boolean values; the two closures
  the source actually builds are `getTrue` from utils and
  `() => toValue(autoHideOnRouteChange)` from `useBackHandler`.
* Handlers and callbacks are identified by number; invocations of
  handlers, the default back action, the observers and the platform
  registration are recorded as an explicit event list returned by each
  operation.
* The function-slot gating (`addHistory` / `removeHistory` are `noop`
  until `install` swaps in the live implementations, and the unmount
  teardown swaps the `noop`s back) is modelled by the `installed` flag:
  in the source the slots are live exactly when `installed` is true,
  because `install` and the teardown update both together.
-/

namespace H5Kit

/-- Reactive environment: the current boolean value of each reactive
flag slot (a Vue ref or getter the closures read at call time). -/
abbrev Env : Type := Nat → Bool

/-- Modelled from the spec and the Vue API: a `MaybeRefOrGetter<boolean>`
is either a plain boolean or a reactive source read at call time. -/
inductive MaybeRefOrGetterBool where
  | const (b : Bool)
  | flag (i : Nat)
deriving DecidableEq

/-- Vue's `toValue`: a plain boolean is returned as is, a ref or getter
is read from the current reactive environment. -/
def toValue (v : MaybeRefOrGetterBool) (env : Env) : Bool :=
  match v with
  | MaybeRefOrGetterBool.const b => b
  | MaybeRefOrGetterBool.flag i => env i

/-- The condition closures that occur in the source: `getTrue` from
utils (modelled from the spec: a constant-true function, used as the
default condition), and the closure `fun _ => toValue g` that
`useBackHandler.addToHistory` builds over the auto-hide flag. -/
inductive Cond where
  | getTrue
  | getter (g : MaybeRefOrGetterBool)
deriving DecidableEq

/-- Evaluate a condition closure in the current reactive environment. -/
def evalCond (c : Cond) (env : Env) : Bool :=
  match c with
  | Cond.getTrue => true
  | Cond.getter g => toValue g env

/-- One history entry object (`BackHandlerHistoryEntry` in the source):
an optional guard condition and a handler callback (identified by
number).  `condition = none` models an entry literal that omitted the
`condition` field. -/
structure BackHandlerHistoryEntry where
  condition : Option Cond
  handler : Nat
deriving DecidableEq

/-- The object store: what entry object each reference currently holds. -/
abbrev Heap : Type := Nat → BackHandlerHistoryEntry

/-- The parts of `BackHandlerOptions` the registry state depends on:
whether the optional observers were configured.  (`defaultBackAction`
and `registerPlatformBackListener` are required callbacks whose
invocations are recorded as events.) -/
structure BackHandlerOptions where
  onHistoryAdded : Bool
  onHistoryRemoved : Bool
deriving DecidableEq

/-- The singleton `BackHandler` state: the `installed` flag, the
`history` stack of entry references (last element = top of stack), the
object heap, and the options captured by the live operations at
install time. -/
structure BackHandlerState where
  installed : Bool
  history : List Nat
  heap : Heap
  opts : BackHandlerOptions

/-- Observable callback invocations performed by the operations. -/
inductive BHEvent where
  | historyAdded (r : Nat)
  | historyRemoved (r : Nat)
  | condEval (r : Nat) (value : Bool)
  | handlerRun (r : Nat)
  | defaultBack
  | registerListener
deriving DecidableEq

/-- `entry.condition ??= getTrue` (line 64): fill in the default
constant-true condition when the entry object omits one, leaving an
already-present condition untouched. -/
def fillCondition (e : BackHandlerHistoryEntry) : BackHandlerHistoryEntry :=
  match e.condition with
  | none => { e with condition := some Cond.getTrue }
  | some _ => e

/-- `self.addHistory` as installed (lines 63-67): default the condition
in place on the entry object, push the same reference onto `history`,
and invoke `onHistoryAdded` if configured.  While uninstalled the slot
holds `noop` from utils (modelled from the spec: a function doing
nothing), so the call has no effect. -/
def addHistory (s : BackHandlerState) (r : Nat) : BackHandlerState × List BHEvent :=
  if s.installed then
    ({ s with
        heap := fun x => if x = r then fillCondition (s.heap r) else s.heap x,
        history := s.history ++ [r] },
     if s.opts.onHistoryAdded then [BHEvent.historyAdded r] else [])
  else (s, [])

/-- JavaScript `Array.prototype.indexOf`: index of the first occurrence
(reference comparison), `-1` when absent. -/
def jsIndexOf (l : List Nat) (r : Nat) : Int :=
  match l with
  | [] => -1
  | x :: xs =>
    if x = r then 0
    else if jsIndexOf xs r = -1 then -1
    else jsIndexOf xs r + 1

/-- `self.removeHistory` as installed (lines 69-75): look up the entry
by reference with `indexOf`; if found, `splice` it out (remove exactly
that index) and invoke `onHistoryRemoved` if configured; otherwise do
nothing.  While uninstalled the slot holds `noop`, so the call has no
effect. -/
def removeHistory (s : BackHandlerState) (r : Nat) : BackHandlerState × List BHEvent :=
  if s.installed then
    if jsIndexOf s.history r > -1 then
      ({ s with history := s.history.eraseIdx (jsIndexOf s.history r).toNat },
       if s.opts.onHistoryRemoved then [BHEvent.historyRemoved r] else [])
    else (s, [])
  else (s, [])

/-- `entry.condition!()` (line 88): the non-null assertion trusts the
condition to be present; every entry that reached `history` went
through `addHistory`, which filled the default. -/
def condCheck (e : BackHandlerHistoryEntry) (env : Env) : Bool :=
  evalCond (e.condition.getD Cond.getTrue) env

/-- The listener registered with the platform (lines 85-96): on a
non-empty stack read the last entry (`history[history.length - 1]`,
necessarily present, hence the `entry &&` guard always passes); if its
condition evaluates true, `pop` it and run its handler; otherwise do
nothing.  On an empty stack invoke `defaultBackAction`. -/
def backHandler (env : Env) (s : BackHandlerState) : BackHandlerState × List BHEvent :=
  match s.history.getLast? with
  | none => (s, [BHEvent.defaultBack])
  | some r =>
    if condCheck (s.heap r) env then
      ({ s with history := s.history.dropLast },
       [BHEvent.condEval r true, BHEvent.handlerRun r])
    else (s, [BHEvent.condEval r false])

/-- `install` (lines 55-99): return immediately when already installed
or outside a browser-like environment (`isBrowser` is modelled from the
spec: a constant of the runtime, passed here as a parameter); otherwise
set `installed`, swap in the live operations, capture the options, and
register the listener with the platform (the `registerListener`
event). -/
def install (isBrowser : Bool) (s : BackHandlerState) (options : BackHandlerOptions) :
    BackHandlerState × List BHEvent :=
  if s.installed || !isBrowser then (s, [])
  else ({ s with installed := true, opts := options }, [BHEvent.registerListener])

/-- The teardown registered with `app.onUnmount` (lines 77-83): swap
the `noop`s back in, reset `history` to a fresh empty array, clear
`installed`. -/
def unmountTeardown (s : BackHandlerState) : BackHandlerState :=
  { s with history := [], installed := false }

/-- Two consecutive `install` calls on the same registry, with the
events of both invocations concatenated. -/
def installTwice (isBrowser : Bool) (s : BackHandlerState)
    (o1 o2 : BackHandlerOptions) : BackHandlerState × List BHEvent :=
  ((install isBrowser (install isBrowser s o1).1 o2).1,
   (install isBrowser s o1).2 ++ (install isBrowser (install isBrowser s o1).1 o2).2)

/-- The per-usage-site state of `useBackHandler` (lines 113-140): the
caller-supplied `showing` and `autoHideOnRouteChange` reactive values,
the `onHide` callback, and the retained `historyEntry` reference
(`none` models the `null` initial and cleared states). -/
structure Binding where
  showing : MaybeRefOrGetterBool
  onHide : Nat
  autoHideOnRouteChange : MaybeRefOrGetterBool
  historyEntry : Option Nat
deriving DecidableEq

/-- `addToHistory` (lines 132-138): allocate a fresh entry object at
reference `newRef` whose condition is the closure reading the auto-hide
flag and whose handler is `onHide`, retain the reference, and pass the
same reference to `BackHandler.addHistory` (which is a no-op while
uninstalled, but the binding retains the reference regardless). -/
def addToHistory (b : Binding) (s : BackHandlerState) (newRef : Nat) :
    Binding × BackHandlerState × List BHEvent :=
  ({ b with historyEntry := some newRef },
   (addHistory
      { s with heap := fun x => if x = newRef then
          { condition := some (Cond.getter b.autoHideOnRouteChange), handler := b.onHide }
        else s.heap x }
      newRef).1,
   (addHistory
      { s with heap := fun x => if x = newRef then
          { condition := some (Cond.getter b.autoHideOnRouteChange), handler := b.onHide }
        else s.heap x }
      newRef).2)

/-- `removeFromHistory` (lines 119-124): if an entry reference is
retained, ask the registry to remove it and clear the retained
reference; otherwise do nothing. -/
def removeFromHistory (b : Binding) (s : BackHandlerState) :
    Binding × BackHandlerState × List BHEvent :=
  match b.historyEntry with
  | some r => ({ b with historyEntry := none }, (removeHistory s r).1, (removeHistory s r).2)
  | none => (b, s, [])

/-- The `onScopeDispose` callback (lines 126-128):
`toValue(showing) && removeFromHistory()`. -/
def scopeDispose (env : Env) (b : Binding) (s : BackHandlerState) :
    Binding × BackHandlerState × List BHEvent :=
  if toValue b.showing env then removeFromHistory b s else (b, s, [])

/-- The operations a client can perform on the registry. -/
inductive Op where
  | doInstall (options : BackHandlerOptions)
  | doUnmount
  | doAdd (r : Nat)
  | doRemove (r : Nat)
  | backPress (env : Env)

/-- One registry transition.  The unmount teardown only exists once a
successful `install` registered it with `app.onUnmount`, so it fires
only while installed. -/
def step (isBrowser : Bool) (s : BackHandlerState) (op : Op) :
    BackHandlerState × List BHEvent :=
  match op with
  | Op.doInstall o => install isBrowser s o
  | Op.doUnmount => if s.installed then (unmountTeardown s, []) else (s, [])
  | Op.doAdd r => addHistory s r
  | Op.doRemove r => removeHistory s r
  | Op.backPress env => backHandler env s

/-- Run a sequence of operations, discarding the events. -/
def runOps (isBrowser : Bool) (s : BackHandlerState) (ops : List Op) : BackHandlerState :=
  match ops with
  | [] => s
  | op :: rest => runOps isBrowser (step isBrowser s op).1 rest

/-- Along a trace, every `addHistory` call passes an entry reference
that is not currently on the stack (distinct entry objects are used,
no entry is re-added while still present). -/
def freshAdds (isBrowser : Bool) (s : BackHandlerState) : List Op → Prop
  | [] => True
  | op :: rest =>
    (∀ r, op = Op.doAdd r → r ∉ s.history) ∧
    freshAdds isBrowser (step isBrowser s op).1 rest

/-- The module-load state of the singleton (lines 35-51): uninstalled,
empty history, no observers configured; the heap holds default objects. -/
def initialState : BackHandlerState :=
  { installed := false
    history := []
    heap := fun _ => { condition := none, handler := 0 }
    opts := { onHistoryAdded := false, onHistoryRemoved := false } }

/-! ## Concrete fixtures used by the witnesses -/

/-- A concrete reactive environment: every flag reads true. -/
def wEnv : Env := fun _ => true

/-- A concrete heap: every reference holds a condition-less entry with
handler 0. -/
def wHeap : Heap := fun _ => { condition := none, handler := 0 }

/-- An installed registry with an empty stack and both observers
configured. -/
def wEmptyState : BackHandlerState :=
  { installed := true
    history := []
    heap := wHeap
    opts := { onHistoryAdded := true, onHistoryRemoved := true } }

/-- An installed registry whose stack is `[4]`, every reference holding
an always-true condition. -/
def wTopTrueState : BackHandlerState :=
  { installed := true
    history := [4]
    heap := fun _ => { condition := some Cond.getTrue, handler := 3 }
    opts := { onHistoryAdded := false, onHistoryRemoved := false } }

/-- An installed registry whose stack is `[4]`, every reference holding
a condition that reads a constant false. -/
def wTopFalseState : BackHandlerState :=
  { installed := true
    history := [4]
    heap := fun _ =>
      { condition := some (Cond.getter (MaybeRefOrGetterBool.const false)), handler := 3 }
    opts := { onHistoryAdded := false, onHistoryRemoved := false } }

/-- An installed registry whose stack is `[1, 2]`. -/
def wPairState : BackHandlerState :=
  { installed := true
    history := [1, 2]
    heap := wHeap
    opts := { onHistoryAdded := true, onHistoryRemoved := true } }

/-! ## Helper lemmas about `jsIndexOf` -/

theorem jsIndexOf_of_not_mem (l : List Nat) (r : Nat) (h : r ∉ l) :
    jsIndexOf l r = -1 := by
  induction l with
  | nil => rfl
  | cons x xs ih =>
    simp only [List.mem_cons, not_or] at h
    have hx : ¬ x = r := fun hxr => h.1 hxr.symm
    simp [jsIndexOf, hx, ih h.2]

theorem jsIndexOf_spec (l : List Nat) (r : Nat) (h : r ∈ l) :
    ∃ pre post, l = pre ++ r :: post ∧ r ∉ pre ∧
      jsIndexOf l r = (pre.length : Int) ∧
      l.eraseIdx (jsIndexOf l r).toNat = pre ++ post := by
  induction l with
  | nil => cases h
  | cons x xs ih =>
    by_cases hx : x = r
    · subst hx
      exact ⟨[], xs, rfl, List.not_mem_nil x, by simp [jsIndexOf], by simp [jsIndexOf]⟩
    · have hmem : r ∈ xs := by
        rcases List.mem_cons.mp h with h1 | h2
        · exact absurd h1.symm hx
        · exact h2
      obtain ⟨pre, post, hl, hpre, hidx, herase⟩ := ih hmem
      have hne : ¬ jsIndexOf xs r = -1 := by rw [hidx]; omega
      have hidx2 : jsIndexOf (x :: xs) r = ((x :: pre).length : Int) := by
        simp only [jsIndexOf, hx, if_false, hne, hidx, List.length_cons]
        push_cast
        ring
      refine ⟨x :: pre, post, by rw [hl]; rfl, ?_, hidx2, ?_⟩
      · intro hr
        rcases List.mem_cons.mp hr with h1 | h2
        · exact hx h1.symm
        · exact hpre h2
      · rw [hidx2]
        have htn1 : ((x :: pre).length : Int).toNat = pre.length + 1 := by
          simp [List.length_cons]
        rw [htn1]
        have htn2 : (jsIndexOf xs r).toNat = pre.length := by rw [hidx]; omega
        rw [htn2] at herase
        simp only [List.eraseIdx_cons_succ, herase, List.cons_append]

/-! ## Claims about the platform listener -/

/-- C1: every invocation of the listener registered at install time
behaves as follows.  On an empty history it invokes
`defaultBackAction` exactly once and no entry's handler.  On a
non-empty history whose topmost (last-appended) entry's condition
evaluates true, exactly that entry is popped and its handler runs
exactly once, `defaultBackAction` is not invoked, and the remaining
entries keep their relative order. -/
theorem C1_listener_pop_or_default (env : Env) (s : BackHandlerState)
    (l : List Nat) (r : Nat) :
    (s.history = [] → backHandler env s = (s, [BHEvent.defaultBack])) ∧
    (s.history = l ++ [r] → condCheck (s.heap r) env = true →
      backHandler env s =
        ({ s with history := l }, [BHEvent.condEval r true, BHEvent.handlerRun r])) := by
  constructor
  · intro h
    simp [backHandler, h]
  · intro h hc
    simp only [backHandler, h, List.getLast?_concat, hc, if_true, List.dropLast_concat]

/-- C1 witness: at concrete inputs, the empty-stack invocation yields
exactly the default-back event, and a stack `[4]` whose top condition
is `getTrue` pops to `[]` with exactly the handler event. -/
theorem C1_listener_witness :
    backHandler wEnv wEmptyState = (wEmptyState, [BHEvent.defaultBack]) ∧
    backHandler wEnv wTopTrueState =
      ({ wTopTrueState with history := [] },
       [BHEvent.condEval 4 true, BHEvent.handlerRun 4]) :=
  ⟨(C1_listener_pop_or_default wEnv wEmptyState [] 0).1 rfl,
   (C1_listener_pop_or_default wEnv wTopTrueState [] 4).2 rfl rfl⟩

/-- C2: an invocation of the listener on a non-empty history whose
topmost entry's condition evaluates false invokes no handler and not
`defaultBackAction`, leaves the whole state unchanged (the top is not
popped), and evaluates no deeper entry's condition (the only event is
the single condition check of the top entry). -/
theorem C2_false_condition_absorbs (env : Env) (s : BackHandlerState)
    (l : List Nat) (r : Nat) (h : s.history = l ++ [r])
    (hc : condCheck (s.heap r) env = false) :
    backHandler env s = (s, [BHEvent.condEval r false]) := by
  simp only [backHandler, h, List.getLast?_concat, hc, Bool.false_eq_true, if_false]

/-- C2 witness: a stack `[4]` whose top condition reads a constant
false is left untouched, with only the condition-check event. -/
theorem C2_false_condition_witness :
    backHandler wEnv wTopFalseState = (wTopFalseState, [BHEvent.condEval 4 false]) :=
  C2_false_condition_absorbs wEnv wTopFalseState [] 4 rfl rfl

/-! ## Claims about install gating -/

/-- C4: while the registry is uninstalled (before the first successful
install, or after the unmount teardown reset `installed`), `addHistory`
and `removeHistory` are no-ops: the whole state (history, installed
flag, heap) is unchanged and neither `onHistoryAdded` nor
`onHistoryRemoved` is invoked (no events). -/
theorem C4_uninstalled_noops (s : BackHandlerState) (r1 r2 : Nat)
    (h : s.installed = false) :
    addHistory s r1 = (s, []) ∧ removeHistory s r2 = (s, []) := by
  simp [addHistory, removeHistory, h]

/-- C4 witness: on the module-load state both operations return the
state unchanged with no events. -/
theorem C4_uninstalled_witness :
    addHistory initialState 1 = (initialState, []) ∧
    removeHistory initialState 2 = (initialState, []) :=
  C4_uninstalled_noops initialState 1 2 rfl

/-- C3: install is idempotent and environment-gated.  A call while
already installed, or outside a browser-like environment, returns with
no effect on any registry state and performs no calls.  Starting from
an uninstalled registry in a browser environment, a pair of
consecutive install calls invokes `registerPlatformBackListener`
exactly once in total (the whole event trace of the pair is the single
registration). -/
theorem C3_install_gated_idempotent (isBrowser : Bool) (s : BackHandlerState)
    (o1 o2 : BackHandlerOptions) :
    (s.installed = true ∨ isBrowser = false → install isBrowser s o1 = (s, [])) ∧
    (s.installed = false → isBrowser = true →
      (installTwice isBrowser s o1 o2).2 = [BHEvent.registerListener]) := by
  constructor
  · rintro (h | h) <;> simp [install, h]
  · intro h1 h2
    simp [installTwice, install, h1, h2]

/-- C3 witness: install on an already-installed registry is the
identity with no events; a double install on the module-load state in
a browser environment emits exactly one registration event. -/
theorem C3_install_witness :
    install true wEmptyState { onHistoryAdded := true, onHistoryRemoved := true }
      = (wEmptyState, []) ∧
    (installTwice true initialState
        { onHistoryAdded := true, onHistoryRemoved := true }
        { onHistoryAdded := false, onHistoryRemoved := false }).2
      = [BHEvent.registerListener] :=
  ⟨(C3_install_gated_idempotent true wEmptyState
      { onHistoryAdded := true, onHistoryRemoved := true }
      { onHistoryAdded := false, onHistoryRemoved := false }).1 (Or.inl rfl),
   (C3_install_gated_idempotent true initialState
      { onHistoryAdded := true, onHistoryRemoved := true }
      { onHistoryAdded := false, onHistoryRemoved := false }).2 rfl rfl⟩

/-- C5: on an installed registry, `addHistory` fills in the
constant-true default condition exactly when the entry omits one,
appends the entry reference at the end of `history` (the new top), and
invokes `onHistoryAdded`, when configured, synchronously exactly once
with exactly the added entry (the event trace of the call is the
single `historyAdded` event carrying the added reference, and empty
when the observer is not configured). -/
theorem C5_addHistory_spec (s : BackHandlerState) (r : Nat)
    (hinst : s.installed = true) :
    ((s.heap r).condition = none →
      (addHistory s r).1.heap r =
        { condition := some Cond.getTrue, handler := (s.heap r).handler }) ∧
    (addHistory s r).1.history = s.history ++ [r] ∧
    (addHistory s r).2 =
      (if s.opts.onHistoryAdded then [BHEvent.historyAdded r] else []) := by
  refine ⟨fun hc => ?_, ?_, ?_⟩
  · simp [addHistory, hinst, fillCondition, hc]
  · simp [addHistory, hinst]
  · simp [addHistory, hinst]

/-- C5 witness: adding reference 9 (a condition-less entry) to an
installed registry with the observer configured fills the default,
appends the reference, and emits exactly one `historyAdded 9` event. -/
theorem C5_addHistory_witness :
    (addHistory wEmptyState 9).1.heap 9 =
      { condition := some Cond.getTrue, handler := 0 } ∧
    (addHistory wEmptyState 9).1.history = [9] ∧
    (addHistory wEmptyState 9).2 = [BHEvent.historyAdded 9] :=
  ⟨(C5_addHistory_spec wEmptyState 9 rfl).1 rfl,
   (C5_addHistory_spec wEmptyState 9 rfl).2.1,
   (C5_addHistory_spec wEmptyState 9 rfl).2.2⟩

/-- C6: on an installed registry, `removeHistory` with an entry that
occurs in `history` (by reference) removes exactly the first
occurrence, preserving the relative order of the remaining entries,
and invokes `onHistoryRemoved`, when configured, exactly once with
exactly that entry; with an entry that does not occur it leaves the
whole state unchanged and invokes no observer. -/
theorem C6_removeHistory_spec (s : BackHandlerState) (r : Nat)
    (hinst : s.installed = true) :
    (r ∈ s.history → ∃ pre post,
      s.history = pre ++ r :: post ∧ r ∉ pre ∧
      removeHistory s r =
        ({ s with history := pre ++ post },
         if s.opts.onHistoryRemoved then [BHEvent.historyRemoved r] else [])) ∧
    (r ∉ s.history → removeHistory s r = (s, [])) := by
  constructor
  · intro hmem
    obtain ⟨pre, post, hl, hpre, hidx, herase⟩ := jsIndexOf_spec s.history r hmem
    have hgt : jsIndexOf s.history r > -1 := by rw [hidx]; omega
    exact ⟨pre, post, hl, hpre, by simp [removeHistory, hinst, hgt, herase]⟩
  · intro hmem
    simp [removeHistory, hinst, jsIndexOf_of_not_mem s.history r hmem]

/-- C6 witness: on the stack `[1, 2]`, removing 2 splits the stack as
`[1] ++ 2 :: []`, leaves `[1]`, and emits exactly one
`historyRemoved 2` event; removing the absent 9 changes nothing. -/
theorem C6_removeHistory_witness :
    (∃ pre post, wPairState.history = pre ++ 2 :: post ∧ 2 ∉ pre ∧
      removeHistory wPairState 2 =
        ({ wPairState with history := pre ++ post },
         if wPairState.opts.onHistoryRemoved then [BHEvent.historyRemoved 2] else [])) ∧
    removeHistory wPairState 9 = (wPairState, []) :=
  ⟨(C6_removeHistory_spec wPairState 2 rfl).1 (by decide),
   (C6_removeHistory_spec wPairState 9 rfl).2 (by decide)⟩

/-- C10: on an installed registry, `addHistory` with an entry object
that omits its condition writes the constant-true default into that
very object: after the call the heap cell at the caller's reference
holds the defaulted record (same handler, condition now the constant
true `getTrue`), so the caller observes the mutation through its own
reference, and the element appended to `history` is that same
reference, not a copy. -/
theorem C10_default_written_in_place (s : BackHandlerState) (r : Nat)
    (hinst : s.installed = true) (hc : (s.heap r).condition = none) :
    (addHistory s r).1.heap r =
      { condition := some Cond.getTrue, handler := (s.heap r).handler } ∧
    (addHistory s r).1.history = s.history ++ [r] ∧
    (addHistory s r).1.history.getLast? = some r := by
  refine ⟨?_, ?_, ?_⟩
  · simp [addHistory, hinst, fillCondition, hc]
  · simp [addHistory, hinst]
  · simp [addHistory, hinst, List.getLast?_concat]

/-- C10 witness: adding the condition-less entry at reference 11 to an
installed registry mutates the heap cell at 11 to the defaulted record
and appends the same reference 11. -/
theorem C10_default_written_witness :
    (addHistory wPairState 11).1.heap 11 =
      { condition := some Cond.getTrue, handler := 0 } ∧
    (addHistory wPairState 11).1.history = [1, 2] ++ [11] ∧
    (addHistory wPairState 11).1.history.getLast? = some 11 :=
  C10_default_written_in_place wPairState 11 rfl rfl

/-! ## Duplicate-freedom of the stack (C7) -/

/-- A binding used by the disposal claims: active (`showing` true) and
retaining reference 3, which need not be on the stack. -/
def wActiveOrphanBinding : Binding :=
  { showing := MaybeRefOrGetterBool.const true
    onHide := 7
    autoHideOnRouteChange := MaybeRefOrGetterBool.const true
    historyEntry := some 3 }

/-- An active binding retaining reference 2. -/
def wActiveBinding : Binding :=
  { showing := MaybeRefOrGetterBool.const true
    onHide := 7
    autoHideOnRouteChange := MaybeRefOrGetterBool.const true
    historyEntry := some 2 }

/-- An inactive binding (`showing` false) retaining reference 3. -/
def wInactiveBinding : Binding :=
  { showing := MaybeRefOrGetterBool.const false
    onHide := 7
    autoHideOnRouteChange := MaybeRefOrGetterBool.const true
    historyEntry := some 3 }

/-- Each single registry transition preserves duplicate-freedom of the
stack, as long as an `addHistory` transition only adds a reference not
currently on the stack. -/
theorem step_preserves_nodup (isBrowser : Bool) (s : BackHandlerState) (op : Op)
    (h : s.history.Nodup) (hf : ∀ r, op = Op.doAdd r → r ∉ s.history) :
    (step isBrowser s op).1.history.Nodup := by
  cases op with
  | doInstall o =>
    have hh : (step isBrowser s (Op.doInstall o)).1.history = s.history := by
      simp only [step, install]
      split
      · rfl
      · rfl
    rw [hh]; exact h
  | doUnmount =>
    simp only [step]
    split
    · exact List.nodup_nil
    · exact h
  | doAdd r =>
    have hr : r ∉ s.history := hf r rfl
    cases hi : s.installed with
    | false => simpa [step, addHistory, hi] using h
    | true =>
      have hh : (step isBrowser s (Op.doAdd r)).1.history = s.history ++ [r] := by
        simp [step, addHistory, hi]
      rw [hh, List.nodup_append]
      exact ⟨h, List.nodup_singleton r,
        fun a ha hb => hr (List.mem_singleton.mp hb ▸ ha)⟩
  | doRemove r =>
    cases hi : s.installed with
    | false => simpa [step, removeHistory, hi] using h
    | true =>
      by_cases hg : jsIndexOf s.history r > -1
      · have hh : (step isBrowser s (Op.doRemove r)).1.history
            = s.history.eraseIdx (jsIndexOf s.history r).toNat := by
          simp [step, removeHistory, hi, hg]
        rw [hh]
        exact (List.eraseIdx_sublist s.history _).nodup h
      · have hh : (step isBrowser s (Op.doRemove r)).1.history = s.history := by
          simp [step, removeHistory, hi, hg]
        rw [hh]; exact h
  | backPress env =>
    rcases hg : s.history.getLast? with _ | r
    · have hh : (step isBrowser s (Op.backPress env)).1.history = s.history := by
        simp [step, backHandler, hg]
      rw [hh]; exact h
    · by_cases hc : condCheck (s.heap r) env = true
      · have hh : (step isBrowser s (Op.backPress env)).1.history
            = s.history.dropLast := by
          simp [step, backHandler, hg, hc]
        rw [hh]
        exact (List.dropLast_sublist s.history).nodup h
      · have hh : (step isBrowser s (Op.backPress env)).1.history = s.history := by
          simp [step, backHandler, hg, hc]
        rw [hh]; exact h

/-- C7 counterexample: the invariant fails for arbitrary operation
sequences, because `addHistory` appends unconditionally.  From the
module-load state, installing and then passing the same entry
reference 5 to `addHistory` twice yields the stack `[5, 5]`, which
contains that entry twice. -/
theorem C7_duplicate_cex :
    ¬ (runOps true initialState
        [Op.doInstall { onHistoryAdded := false, onHistoryRemoved := false },
         Op.doAdd 5, Op.doAdd 5]).history.Nodup := by
  decide

/-- C7 amended: for every registry state reachable by a sequence of
install, addHistory, removeHistory, listener and teardown operations
in which every `addHistory` call passes an entry reference not
currently on the stack (distinct entry objects; a caller re-adding the
same still-present entry object is the caller error the spec sets
aside), the stack never contains an entry twice. -/
theorem C7_nodup_of_fresh (isBrowser : Bool) (s : BackHandlerState) (ops : List Op)
    (h : s.history.Nodup) (hf : freshAdds isBrowser s ops) :
    (runOps isBrowser s ops).history.Nodup := by
  induction ops generalizing s with
  | nil => exact h
  | cons op rest ih =>
    exact ih (step isBrowser s op).1 (step_preserves_nodup isBrowser s op h hf.1) hf.2

/-- C7 witness: a fresh-reference trace (install, add 1, add 2) from
the module-load state ends with a duplicate-free stack. -/
theorem C7_nodup_witness :
    (runOps true initialState
      [Op.doInstall { onHistoryAdded := false, onHistoryRemoved := false },
       Op.doAdd 1, Op.doAdd 2]).history.Nodup := by
  apply C7_nodup_of_fresh true initialState
    [Op.doInstall { onHistoryAdded := false, onHistoryRemoved := false },
     Op.doAdd 1, Op.doAdd 2] List.nodup_nil
  refine ⟨?_, ?_, ?_, trivial⟩
  · exact fun r hr => nomatch hr
  · intro r hr
    cases hr
    decide
  · intro r hr
    cases hr
    decide

/-! ## The binding helper (C8, C9) -/

/-- C8: every entry object created by the binding helper's
`addToHistory` carries as its condition the closure over the live
auto-hide flag and as its handler the caller's dismiss callback; every
evaluation of that condition returns the value the flag holds in the
reactive environment of that evaluation, with no re-registration, so
two evaluations under environments giving the flag different values
return different results. -/
theorem C8_condition_rereads_flag (b : Binding) (s : BackHandlerState) (n : Nat)
    (env1 env2 : Env) :
    ((addToHistory b s n).2.1.heap n).condition
      = some (Cond.getter b.autoHideOnRouteChange) ∧
    ((addToHistory b s n).2.1.heap n).handler = b.onHide ∧
    condCheck ((addToHistory b s n).2.1.heap n) env1
      = toValue b.autoHideOnRouteChange env1 ∧
    condCheck ((addToHistory b s n).2.1.heap n) env2
      = toValue b.autoHideOnRouteChange env2 := by
  cases hi : s.installed with
  | false => simp [addToHistory, addHistory, hi, condCheck, evalCond]
  | true => simp [addToHistory, addHistory, hi, fillCondition, condCheck, evalCond]

/-- C9 counterexample: disposal while active with a retained entry does
not always shrink the stack.  Here the active binding retains
reference 3, which is no longer on the (empty) stack of an installed
registry — the situation after the listener itself popped the entry —
so disposal removes nothing and the stack length stays 0 instead of
decreasing by one. -/
theorem C9_dispose_cex :
    toValue wActiveOrphanBinding.showing wEnv = true ∧
    wActiveOrphanBinding.historyEntry = some 3 ∧
    wEmptyState.installed = true ∧
    (scopeDispose wEnv wActiveOrphanBinding wEmptyState).2.1.history
      = wEmptyState.history ∧
    wEmptyState.history.length = 0 := by
  refine ⟨rfl, rfl, rfl, ?_, rfl⟩
  simp [scopeDispose, removeFromHistory, removeHistory, wActiveOrphanBinding,
    wEmptyState, toValue, jsIndexOf, wEnv]

/-- C9 amended: when the usage site's scope is disposed while the
"is active" value is false, nothing happens and the stack is
unchanged.  While active with a retained entry, `removeFromHistory`
runs automatically: it clears the retained reference and delegates to
the registry's `removeHistory`; when the registry is installed and the
retained entry is on the stack this removes it and the stack length
decreases by one, and otherwise (registry uninstalled, or entry no
longer present) the stack is unchanged. -/
theorem C9_dispose_spec (env : Env) (b : Binding) (s : BackHandlerState) (r : Nat) :
    (toValue b.showing env = false → scopeDispose env b s = (b, s, [])) ∧
    (toValue b.showing env = true → b.historyEntry = some r →
      scopeDispose env b s =
        ({ b with historyEntry := none },
         (removeHistory s r).1, (removeHistory s r).2)) ∧
    (toValue b.showing env = true → b.historyEntry = some r →
      s.installed = true → r ∈ s.history →
      (scopeDispose env b s).2.1.history.length + 1 = s.history.length) ∧
    (toValue b.showing env = true → b.historyEntry = some r →
      (s.installed = false ∨ r ∉ s.history) →
      (scopeDispose env b s).2.1.history = s.history) := by
  refine ⟨fun hact => ?_, fun hact hret => ?_, fun hact hret hinst hmem => ?_,
    fun hact hret hd => ?_⟩
  · simp [scopeDispose, hact]
  · simp [scopeDispose, hact, removeFromHistory, hret]
  · obtain ⟨pre, post, hl, hpre, hidx, herase⟩ := jsIndexOf_spec s.history r hmem
    have hgt : jsIndexOf s.history r > -1 := by rw [hidx]; omega
    have hh : (scopeDispose env b s).2.1.history = pre ++ post := by
      simp [scopeDispose, hact, removeFromHistory, hret, removeHistory, hinst,
        hgt, herase]
    rw [hh, hl]
    simp only [List.length_append, List.length_cons]
    omega
  · have hrem : (removeHistory s r).1 = s := by
      rcases hd with hi | hm
      · simp [removeHistory, hi]
      · cases hi : s.installed with
        | false => simp [removeHistory, hi]
        | true => simp [removeHistory, hi, jsIndexOf_of_not_mem s.history r hm]
    simp [scopeDispose, hact, removeFromHistory, hret, hrem]

/-- C9 witness: on the installed stack `[1, 2]`, disposal of an
inactive binding changes nothing; disposal of an active binding
retaining the on-stack reference 2 delegates to `removeHistory` and
shrinks the stack by one; disposal of an active binding retaining the
absent reference 3 leaves the stack unchanged. -/
theorem C9_dispose_witness :
    scopeDispose wEnv wInactiveBinding wPairState = (wInactiveBinding, wPairState, []) ∧
    scopeDispose wEnv wActiveBinding wPairState =
      ({ wActiveBinding with historyEntry := none },
       (removeHistory wPairState 2).1, (removeHistory wPairState 2).2) ∧
    (scopeDispose wEnv wActiveBinding wPairState).2.1.history.length + 1
      = wPairState.history.length ∧
    (scopeDispose wEnv wActiveOrphanBinding wPairState).2.1.history
      = wPairState.history :=
  ⟨(C9_dispose_spec wEnv wInactiveBinding wPairState 3).1 rfl,
   (C9_dispose_spec wEnv wActiveBinding wPairState 2).2.1 rfl rfl,
   (C9_dispose_spec wEnv wActiveBinding wPairState 2).2.2.1 rfl rfl rfl (by decide),
   (C9_dispose_spec wEnv wActiveOrphanBinding wPairState 3).2.2.2 rfl rfl
     (Or.inr (by decide))⟩

end H5Kit
